import Mathlib

/-!
Verification development for the chatterbox-rvc-server repository.

This file gives a shallow embedding of the server's core logic:
  * `src/server/utils/voice_scanning.py` (voice catalog scan and resolution),
  * `src/server/utils/audio.py` (`_encode_audio`, `_resample`),
  * `src/server/models/chatterbox.py` / `src/server/models/rvc.py`
    (lazy double-checked gateway initialization, modelled sequentially),
  * `src/server/api/endpoints.py` (`audio_speech`, the request pipeline),
and proves the catalogued properties about them.

Modelling conventions:
  * Waveforms are `List Int` (sample contents are opaque to the control flow
    under study; the code only moves them around).  The multi-channel mean
    collapse after the RVC read-back is infallible in the code and no
    property inspects channel layout, so the read-back is modelled as
    already mono.
  * External fallible calls (Chatterbox inference, `sf.write`,
    `RVC.convert_file`, `sf.read`) are oracles recorded in an `Env`
    structure; each either succeeds with a value or raises.
  * `librosa.resample` and the soundfile encoders are opaque function
    parameters in `Env`; the branching around them (`if sr_in == sr_out`,
    format dispatch) is embedded from the source.
  * Python `str.strip` / `str.lower` are modelled over the ASCII range,
    which covers every string the code compares against.
  * Paths are folder/file name strings; a directory is its list of regular
    file names.  `random.choice(xs)` is modelled by an externally supplied
    pick index taken modulo `xs.length`, so that quantifying over picks
    below the length enumerates the uniform distribution.
-/

namespace ChatterVC

/-- Python whitespace characters in the ASCII range (`str.strip` default). -/
def isPyWhite (c : Char) : Bool :=
  c = ' ' || c = '\t' || c = '\n' || c = '\r' || c = '\x0b' || c = '\x0c'

/-- Model of Python `str.strip()`: drop whitespace from both ends. -/
def pyStrip (s : String) : String :=
  ⟨((s.data.dropWhile isPyWhite).reverse.dropWhile isPyWhite).reverse⟩

/-- Model of Python `x or d` for an optional integer (`None` and `0` are falsy). -/
def pyOrNat (x : Option Nat) (d : Nat) : Nat :=
  match x with
  | some v => if v = 0 then d else v
  | none => d

/-- ASCII lowercase of one character (Python `str.lower` on the code's
ASCII-only comparands). -/
def lowerChar (c : Char) : Char :=
  if 65 ≤ c.toNat && c.toNat ≤ 90 then Char.ofNat (c.toNat + 32) else c

/-- Model of Python `str.lower()`. -/
def strLower (s : String) : String :=
  ⟨s.data.map lowerChar⟩

/-- Model of Python `str.endswith` / the `folder.glob(f"*ext")` filename
test. -/
def strEndsWith (s post : String) : Bool :=
  List.isSuffixOf post.data s.data

/-- Lexicographic comparison of character lists by code point, the order
Python `sorted` uses on `str`. -/
def charsLe : List Char → List Char → Bool
  | [], _ => true
  | _ :: _, [] => false
  | a :: as, b :: bs =>
    if a.toNat < b.toNat then true
    else if a.toNat = b.toNat then charsLe as bs
    else false

/-- Python string `≤` as a proposition. -/
def SLe (a b : String) : Prop :=
  charsLe a.data b.data = true

instance : DecidableRel SLe := fun a b =>
  inferInstanceAs (Decidable (charsLe a.data b.data = true))

/-- Python `sorted` on a list of strings (ascending; a stable sort, but any
sorted permutation agrees up to equal elements, which for strings are
identical). -/
def pySorted (files : List String) : List String :=
  List.insertionSort SLe files

/-- `AUDIO_EXTS` from `src/server/utils/config.py`. -/
def AUDIO_EXTS : List String :=
  [".wav", ".mp3", ".flac", ".ogg", ".m4a", ".aac"]

/-- `DEFAULT_SAMPLE_RATE` default from `src/server/utils/config.py`. -/
def DEFAULT_SAMPLE_RATE : Nat := 24000

/-- A voice subdirectory: its folder name and the names of the regular files
it contains. -/
structure Folder where
  name : String
  files : List String
deriving DecidableEq, Repr

/-- `VoiceInfo` dataclass from `src/server/utils/voice_scanning.py`. -/
structure VoiceInfo where
  name : String
  id : String
  prompt : String
  rvc_pth : Option String
  rvc_index : Option String
deriving DecidableEq, Repr

/-- `_first_with_suffix`: for each suffix in order, the lexicographically
first file carrying it; first hit across the suffix list wins
(`for s in suffixes: for p in sorted(folder.glob(f"*s")): return p`). -/
def _first_with_suffix (files : List String) (suffixes : List String) :
    Option String :=
  match suffixes with
  | [] => none
  | s :: rest =>
    match (pySorted (files.filter (fun f => strEndsWith f s))).head? with
    | some p => some p
    | none => _first_with_suffix files rest

/-- `_first_audio_in`: first audio file, trying `AUDIO_EXTS` in order. -/
def _first_audio_in (files : List String) : Option String :=
  _first_with_suffix files AUDIO_EXTS

/-- The voice index is a Python dict keyed by strings, modelled as an
association list in insertion order. -/
abbrev VDict := List (String × VoiceInfo)

/-- Python `d[k] = v`: update in place if the key exists, else append. -/
def dinsert (d : VDict) (k : String) (v : VoiceInfo) : VDict :=
  match d with
  | [] => [(k, v)]
  | (k0, v0) :: rest =>
    if k0 = k then (k, v) :: rest else (k0, v0) :: dinsert rest k v

/-- Python `d.get(k)` / `k in d`. -/
def dlookup (d : VDict) (k : String) : Option VoiceInfo :=
  match d with
  | [] => none
  | (k0, v0) :: rest => if k0 = k then some v0 else dlookup rest k

/-- Python `list(d.values())` (insertion order). -/
def dvalues (d : VDict) : List VoiceInfo :=
  d.map Prod.snd

/-- The record `_scan_voices` builds for one qualifying folder
(`vid = f"name"`, so `id = name`). -/
def mkScanRecord (sub : Folder) (prompt : String) : VoiceInfo :=
  { name := sub.name
    id := sub.name
    prompt := prompt
    rvc_pth := _first_with_suffix sub.files [".pth"]
    rvc_index := _first_with_suffix sub.files [".index", ".faiss", ".idx"] }

/-- Result of `_scan_voices`: the JSON listing (id, name pairs, sentinel
first) and the lookup index. -/
structure ScanOut where
  voices_json : List (String × String)
  idx : VDict
deriving DecidableEq, Repr

/-- Subdirectories are visited in lexicographic (name) order. -/
def sortFolders (subs : List Folder) : List Folder :=
  List.insertionSort (fun a b => SLe a.name b.name) subs

/-- One iteration of the `_scan_voices` loop body. -/
def scanStep (acc : ScanOut) (sub : Folder) : ScanOut :=
  match _first_audio_in sub.files with
  | none => acc
  | some prompt =>
    let vi := mkScanRecord sub prompt
    { voices_json := acc.voices_json ++ [(vi.id, vi.name)]
      idx := dinsert (dinsert acc.idx (strLower vi.name) vi) (strLower vi.id) vi }

/-- `_scan_voices`: walk sorted subdirectories of the voices root; the
sentinel listing entry is prepended; a missing root yields the empty scan.
`rootExists` models `VOICES_ROOT.exists()`; `subs` are its immediate
subdirectories. -/
def _scan_voices (rootExists : Bool) (subs : List Folder) : ScanOut :=
  if rootExists then
    (sortFolders subs).foldl scanStep ⟨[("random", "Random")], []⟩
  else
    ⟨[("random", "Random")], []⟩

/-- HTTP error as raised via `HTTPException(status_code=...)`. -/
structure HttpError where
  status : Nat
deriving DecidableEq, Repr

/-- `_resolve_voice`: normalize (strip + lower); the sentinel `random`
samples the index values (uniform `random.choice`, modelled by `pick`);
an index hit returns the stored record; otherwise fall back to a raw
folder scan that builds a record with `id = "voices/" ++ name`. -/
def _resolve_voice (voice : String) (idx : VDict) (subs : List Folder)
    (pick : Nat) : Except HttpError VoiceInfo :=
  let v := strLower (pyStrip voice)
  if v = "random" then
    let names := dvalues idx
    if h : names.length = 0 then
      .error ⟨404⟩
    else
      .ok (names.get ⟨pick % names.length,
        Nat.mod_lt _ (Nat.pos_of_ne_zero h)⟩)
  else
    match dlookup idx v with
    | some vi => .ok vi
    | none =>
      match subs.find? (fun f => f.name = voice) with
      | some folder =>
        match _first_audio_in folder.files with
        | none => .error ⟨404⟩
        | some prompt =>
          .ok { name := folder.name
                id := "voices/" ++ folder.name
                prompt := prompt
                rvc_pth := _first_with_suffix folder.files [".pth"]
                rvc_index :=
                  _first_with_suffix folder.files [".index", ".faiss", ".idx"] }
      | none => .error ⟨404⟩

/-! ## Model gateways (`src/server/models/chatterbox.py`, `rvc.py`)

`CBHandle.load` / `RVCHolder.ensure_loaded` use double-checked locking.
The lock serializes the slow path, so the observable behaviour is that of
the sequential state machine below; each call's construction outcome
(`from_pretrained` / `VoiceConverter()` succeeding or raising) is an
oracle. -/

/-- `CBHandle` mutable state: `self.model` and `self.sr` (engine handles
abstracted as `Nat`). -/
structure CBState where
  model : Option Nat
  sr : Option Nat
deriving DecidableEq, Repr

/-- One `CBHandle.load()` call.  Returns the new state and whether this
call performed a (successful) construction.  If `from_pretrained` raises,
the assignment to `self.model` never happens and the state is unchanged. -/
def cb_load (outcome : Except Unit (Nat × Nat)) (s : CBState) :
    CBState × Bool :=
  match s.model with
  | some _ => (s, false)
  | none =>
    match outcome with
    | .error _ => (s, false)
    | .ok (m, srv) => ({ model := some m, sr := some srv }, true)

/-- A sequence of `load` calls from a given state, counting successful
constructions. -/
def cb_run (outcomes : List (Except Unit (Nat × Nat))) (s : CBState) :
    CBState × Nat :=
  match outcomes with
  | [] => (s, 0)
  | o :: rest =>
    let (s1, built) := cb_load o s
    let (s2, n) := cb_run rest s1
    (s2, (if built then 1 else 0) + n)

/-- `RVCHolder` mutable state: `self.vc`. -/
structure RVCState where
  vc : Option Nat
deriving DecidableEq, Repr

/-- One `RVCHolder.ensure_loaded()` call (the `_RVCConverter is None`
guard is dead once the module imported, so it is not modelled). -/
def rvc_ensure_loaded (outcome : Except Unit Nat) (s : RVCState) :
    RVCState × Bool :=
  match s.vc with
  | some _ => (s, false)
  | none =>
    match outcome with
    | .error _ => (s, false)
    | .ok c => ({ vc := some c }, true)

/-- A sequence of `ensure_loaded` calls, counting successful constructions. -/
def rvc_run (outcomes : List (Except Unit Nat)) (s : RVCState) :
    RVCState × Nat :=
  match outcomes with
  | [] => (s, 0)
  | o :: rest =>
    let (s1, built) := rvc_ensure_loaded o s
    let (s2, n) := rvc_run rest s1
    (s2, (if built then 1 else 0) + n)

/-! ## Audio codec adapter (`src/server/utils/audio.py`) -/

/-- Waveform samples (contents opaque to the control flow). -/
abbrev Wave := List Int

/-- `_resample`: identity when the rates agree, otherwise
`librosa.resample`, supplied as the opaque `resampleFn`. -/
def _resample (resampleFn : Wave → Nat → Nat → Wave) (wave : Wave)
    (sr_in sr_out : Nat) : Wave :=
  if sr_in = sr_out then wave else resampleFn wave sr_in sr_out

/-- `_encode_audio`: lowercase the format, dispatch to the soundfile
encoder (opaque `enc`, taking the container tag) with the matching MIME
type; anything else raises `HTTPException(400)`. -/
def _encode_audio (enc : String → Wave → Nat → List Nat) (wave : Wave)
    (sr : Nat) (fmt : String) : Except HttpError (List Nat × String) :=
  let f := strLower fmt
  if f = "wav" then .ok (enc "WAV" wave sr, "audio/wav")
  else if f = "flac" then .ok (enc "FLAC" wave sr, "audio/flac")
  else if f = "ogg" then .ok (enc "OGG" wave sr, "audio/ogg")
  else .error ⟨400⟩

/-! ## Request pipeline (`src/server/api/endpoints.py`, `audio_speech`) -/

/-- `SpeechRequest` schema fields used by the pipeline
(`src/server/api/schemas.py`; defaults as declared there). -/
structure SpeechRequest where
  model : String
  input : String
  voice : String
  format : String := "wav"
  sample_rate : Nat := 24000
  language_id : String := "en"
  rvc_pitch : Int := 0
  rvc_f0_method : String := "rmvpe"
  rvc_sid : Nat := 0
deriving DecidableEq, Repr

/-- Oracles for the external calls one `audio_speech` request makes.
`cbOutcome` is `CB.tts` together with the `CB.sr` it leaves behind
(`None` falls back to `DEFAULT_SAMPLE_RATE` via Python `or`);
`writeOk`, `convertOk`, `readOutcome` are `sf.write`, `RVC.convert_file`
and `sf.read(tmp_out)` inside the RVC try-block; `tmpInName` / `tmpOutName`
are the `uuid4`-derived temp file names. -/
structure Env where
  cbOutcome : Except Unit (Wave × Option Nat)
  writeOk : Bool
  convertOk : Bool
  readOutcome : Except Unit (Wave × Nat)
  resampleFn : Wave → Nat → Nat → Wave
  encFn : String → Wave → Nat → List Nat
  tmpInName : String
  tmpOutName : String

/-- Successful response: payload, MIME type and the observability headers
(`X-Chatterbox-SR` is serialized with `str`, kept as `Nat` here). -/
structure SpeechResponse where
  payload : List Nat
  mime : String
  xModel : String
  xVoice : String
  xRvcApplied : String
  xChatterboxSR : Nat
deriving DecidableEq, Repr

instance {ε α : Type} [DecidableEq ε] [DecidableEq α] :
    DecidableEq (Except ε α) := fun a b =>
  match a, b with
  | .error x, .error y =>
    if h : x = y then .isTrue (by rw [h])
    else .isFalse (by intro hc; cases hc; exact h rfl)
  | .error _, .ok _ => .isFalse (by intro hc; cases hc)
  | .ok _, .error _ => .isFalse (by intro hc; cases hc)
  | .ok x, .ok y =>
    if h : x = y then .isTrue (by rw [h])
    else .isFalse (by intro hc; cases hc; exact h rfl)

/-- Observable trace of one request: the HTTP outcome plus which stages
ran and the cache-directory file effects. -/
structure RunResult where
  response : Except HttpError SpeechResponse
  resolveAttempted : Bool
  cbInvoked : Bool
  rvcStageEntered : Bool
  rvcEngineInvoked : Bool
  tmpCreated : List String
  tmpRemoved : List String
  preResampleWave : Wave
  preResampleSR : Nat
deriving DecidableEq, Repr

/-- Outcome of the RVC try-block: final `wave`/`tts_sr`/`applied_rvc`
values, whether `RVC.convert_file` was reached, and the temp files
created.  Any exception is caught; after a caught failure `wave` and
`tts_sr` still hold the stage-one values (the only fallible statements
are `sf.write`, `convert_file` and `sf.read`, all before the rebinds). -/
def rvcStage (env : Env) (wave : Wave) (tts_sr : Nat) :
    Wave × Nat × Bool × Bool × List String :=
  if env.writeOk then
    if env.convertOk then
      match env.readOutcome with
      | .ok (w2, sr2) => (w2, sr2, true, true, [env.tmpInName, env.tmpOutName])
      | .error _ => (wave, tts_sr, false, true, [env.tmpInName, env.tmpOutName])
    else
      (wave, tts_sr, false, true, [env.tmpInName])
  else
    (wave, tts_sr, false, false, [])

/-- Steps 2)-4) of `audio_speech` after a successful Chatterbox call:
optional RVC pass (guarded by `req.model.lower() == "chatterbox_rvc" and
vi.rvc_pth is not None`, failures caught), resample, encode, emit
headers.  `tts_sr` starts as `CB.sr or DEFAULT_SAMPLE_RATE` and is
rebound by the RVC read-back.  No statement ever removes the temp
files.  `stageOf` is the guarded RVC pass (final wave, final `tts_sr`,
`applied_rvc`, engine reached, temp files created); `postSynth` the rest
of the handler. -/
def stageOf (env : Env) (req : SpeechRequest) (vi : VoiceInfo)
    (wave0 : Wave) (srOpt : Option Nat) :
    Wave × Nat × Bool × Bool × List String :=
  if strLower req.model = "chatterbox_rvc" && vi.rvc_pth.isSome then
    rvcStage env wave0 (pyOrNat srOpt DEFAULT_SAMPLE_RATE)
  else
    (wave0, pyOrNat srOpt DEFAULT_SAMPLE_RATE, false, false, [])

def postSynth (env : Env) (req : SpeechRequest) (vi : VoiceInfo)
    (wave0 : Wave) (srOpt : Option Nat) : RunResult :=
  let enterRvc :=
    strLower req.model = "chatterbox_rvc" && vi.rvc_pth.isSome
  let stage := stageOf env req vi wave0 srOpt
  let wave := stage.1
  let tts_sr := stage.2.1
  let applied_rvc := stage.2.2.1
  let engineInvoked := stage.2.2.2.1
  let created := stage.2.2.2.2
  let out_wave := _resample env.resampleFn wave tts_sr req.sample_rate
  match _encode_audio env.encFn out_wave req.sample_rate req.format with
  | .error e =>
    { response := .error e
      resolveAttempted := true, cbInvoked := true
      rvcStageEntered := enterRvc, rvcEngineInvoked := engineInvoked
      tmpCreated := created, tmpRemoved := []
      preResampleWave := wave, preResampleSR := tts_sr }
  | .ok (payload, mime) =>
    { response := .ok
        { payload := payload, mime := mime
          xModel := req.model, xVoice := vi.name
          xRvcApplied := if applied_rvc then "1" else "0"
          xChatterboxSR := tts_sr }
      resolveAttempted := true, cbInvoked := true
      rvcStageEntered := enterRvc, rvcEngineInvoked := engineInvoked
      tmpCreated := created, tmpRemoved := []
      preResampleWave := wave, preResampleSR := tts_sr }

/-- The `POST /v1/audio/speech` handler `audio_speech`: validate input
(step 0), scan + resolve voice, Chatterbox TTS (step 1), then the
`postSynth` tail.  The source's `text`/`idx` local bindings are
inlined. -/
def audio_speech (env : Env) (rootExists : Bool) (subs : List Folder)
    (pick : Nat) (req : SpeechRequest) : RunResult :=
  if pyStrip req.input = "" then
    { response := .error ⟨400⟩
      resolveAttempted := false, cbInvoked := false
      rvcStageEntered := false, rvcEngineInvoked := false
      tmpCreated := [], tmpRemoved := []
      preResampleWave := [], preResampleSR := 0 }
  else
    match _resolve_voice req.voice (_scan_voices rootExists subs).idx
        subs pick with
    | .error e =>
      { response := .error e
        resolveAttempted := true, cbInvoked := false
        rvcStageEntered := false, rvcEngineInvoked := false
        tmpCreated := [], tmpRemoved := []
        preResampleWave := [], preResampleSR := 0 }
    | .ok vi =>
      match env.cbOutcome with
      | .error _ =>
        { response := .error ⟨500⟩
          resolveAttempted := true, cbInvoked := true
          rvcStageEntered := false, rvcEngineInvoked := false
          tmpCreated := [], tmpRemoved := []
          preResampleWave := [], preResampleSR := 0 }
      | .ok (wave0, srOpt) => postSynth env req vi wave0 srOpt

/-- The formats `_encode_audio` accepts. -/
def validFmt (fmt : String) : Bool :=
  strLower fmt = "wav" || strLower fmt = "flac" || strLower fmt = "ogg"

/-! ## Concrete fixtures used by witnesses and counterexamples -/

/-- A voice folder carrying a reference audio and a conversion model. -/
def fW : Folder := ⟨"alice", ["ref.wav", "model.pth"]⟩

/-- The record the scan builds for `fW`. -/
def viW : VoiceInfo := ⟨"alice", "alice", "ref.wav", some "model.pth", none⟩

/-- An environment in which every external call succeeds; the RVC
read-back reports 48000 Hz while Chatterbox produced 24000 Hz. -/
def envOkAll : Env :=
  { cbOutcome := .ok ([1, 2], some 24000)
    writeOk := true, convertOk := true
    readOutcome := .ok ([9], 48000)
    resampleFn := fun w _ _ => w
    encFn := fun _ _ _ => []
    tmpInName := "tts_a.wav", tmpOutName := "rvc_a.wav" }

/-- Same environment except the temp-file write raises. -/
def envWriteFail : Env :=
  { cbOutcome := .ok ([1, 2], some 24000)
    writeOk := false, convertOk := true
    readOutcome := .ok ([9], 48000)
    resampleFn := fun w _ _ => w
    encFn := fun _ _ _ => []
    tmpInName := "tts_a.wav", tmpOutName := "rvc_a.wav" }

/-- A conversion request (lowercase engine name). -/
def reqRvc : SpeechRequest :=
  { model := "chatterbox_rvc", input := "hi", voice := "alice" }

/-- A conversion request with an upper-cased engine name. -/
def reqRvcUpper : SpeechRequest :=
  { model := "CHATTERBOX_RVC", input := "hi", voice := "alice" }

/-- A base-engine request with an unsupported container format. -/
def reqXml : SpeechRequest :=
  { model := "chatterbox", input := "hi", voice := "alice", format := "xml" }

/-- A request whose input is whitespace only. -/
def reqBlank : SpeechRequest :=
  { model := "chatterbox", input := "  \t ", voice := "alice" }

/-! ## Order facts about the Python string comparison -/

theorem charsLe_refl : ∀ as : List Char, charsLe as as = true := by
  intro as
  induction as with
  | nil => rfl
  | cons a as ih => simp [charsLe, ih]

theorem charsLe_total : ∀ as bs : List Char,
    charsLe as bs = true ∨ charsLe bs as = true := by
  intro as
  induction as with
  | nil => intro bs; left; rfl
  | cons a as ih =>
    intro bs
    cases bs with
    | nil => right; rfl
    | cons b bs =>
      rcases Nat.lt_trichotomy a.toNat b.toNat with h | h | h
      · left; simp [charsLe, h]
      · rcases ih bs with h2 | h2
        · left; simp [charsLe, h, h2]
        · right; simp [charsLe, h.symm, h2]
      · right; simp [charsLe, h]

theorem charsLe_trans : ∀ as bs cs : List Char,
    charsLe as bs = true → charsLe bs cs = true → charsLe as cs = true := by
  intro as
  induction as with
  | nil => intro bs cs _ _; rfl
  | cons a as ih =>
    intro bs cs hab hbc
    cases bs with
    | nil => simp [charsLe] at hab
    | cons b bs =>
      cases cs with
      | nil => simp [charsLe] at hbc
      | cons c cs =>
        simp only [charsLe] at hab hbc ⊢
        split_ifs at hab hbc ⊢ <;>
          first
            | rfl
            | exact ih bs cs hab hbc
            | omega

instance : IsTotal String SLe :=
  ⟨fun a b => charsLe_total a.data b.data⟩

instance : IsTrans String SLe :=
  ⟨fun a b c => charsLe_trans a.data b.data c.data⟩

instance : IsRefl String SLe :=
  ⟨fun a => charsLe_refl a.data⟩

theorem sle_refl (a : String) : SLe a a :=
  charsLe_refl a.data

theorem pySorted_sorted (l : List String) : List.Sorted SLe (pySorted l) :=
  List.sorted_insertionSort SLe l

theorem mem_pySorted {l : List String} {a : String} :
    a ∈ pySorted l ↔ a ∈ l :=
  List.mem_insertionSort SLe

theorem pySorted_head_min {l : List String} {f : String}
    (h : (pySorted l).head? = some f) : f ∈ l ∧ ∀ g ∈ l, SLe f g := by
  have hs := pySorted_sorted l
  cases hps : pySorted l with
  | nil => rw [hps] at h; cases h
  | cons x xs =>
    rw [hps] at h hs
    cases h
    constructor
    · exact mem_pySorted.mp (by rw [hps]; exact List.mem_cons_self _ _)
    · intro g hg
      have hg2 : g ∈ pySorted l := mem_pySorted.mpr hg
      rw [hps] at hg2
      rcases List.mem_cons.mp hg2 with h | h
      · exact h ▸ sle_refl f
      · exact List.rel_of_sorted_cons hs g h

/-! ## Characterizing the first-match file selection -/

/-- Priority the ordered suffix list gives a file: position of the first
suffix it carries, `exts.length` when none matches. -/
def extRank (exts : List String) (f : String) : Nat :=
  match exts with
  | [] => 0
  | e :: rest => if strEndsWith f e then 0 else extRank rest f + 1

theorem extRank_le (exts : List String) (f : String) :
    extRank exts f ≤ exts.length := by
  induction exts with
  | nil => exact Nat.le_refl 0
  | cons e rest ih =>
    simp only [extRank, List.length_cons]
    split
    · omega
    · omega

theorem pySorted_eq_nil {l : List String}
    (h : (pySorted l).head? = none) : l = [] := by
  have h0 : pySorted l = [] := List.head?_eq_none_iff.mp h
  have hlen : l.length = 0 := by
    rw [← List.length_insertionSort SLe l]
    rw [pySorted] at h0
    rw [h0]
    rfl
  exact List.eq_nil_of_length_eq_zero hlen

/-- `_first_with_suffix` returns `none` exactly when no file carries any
of the suffixes. -/
theorem fws_eq_none_iff (files exts : List String) :
    _first_with_suffix files exts = none ↔
      ∀ f ∈ files, ∀ e ∈ exts, strEndsWith f e = false := by
  induction exts with
  | nil => simp [_first_with_suffix]
  | cons e rest ih =>
    rw [_first_with_suffix]
    cases hh : (pySorted (files.filter (fun f => strEndsWith f e))).head? with
    | some p =>
      simp only []
      constructor
      · intro h; cases h
      · intro h
        obtain ⟨hmem, _⟩ := pySorted_head_min hh
        have hp := List.mem_filter.mp hmem
        have := h p hp.1 e (List.mem_cons_self e rest)
        rw [this] at hp
        cases hp.2
    | none =>
      have hfil : files.filter (fun f => strEndsWith f e) = [] :=
        pySorted_eq_nil hh
      have hnone : ∀ f ∈ files, strEndsWith f e = false := by
        intro f hf
        have := List.filter_eq_nil_iff.mp hfil f hf
        simpa using this
      simp only [ih]
      constructor
      · intro h f hf e2 he2
        rcases List.mem_cons.mp he2 with rfl | he2
        · exact hnone f hf
        · exact h f hf e2 he2
      · intro h f hf e2 he2
        exact h f hf e2 (List.mem_cons_of_mem e he2)

/-- Soundness of `_first_with_suffix`: the returned file is among the
inputs, carries some suffix, and is minimal for the order "suffix
priority first, lexicographic name second". -/
theorem fws_eq_some_char (files exts : List String) (f : String)
    (h : _first_with_suffix files exts = some f) :
    f ∈ files ∧ extRank exts f < exts.length ∧
      ∀ g ∈ files, extRank exts g < exts.length →
        extRank exts f < extRank exts g ∨
          (extRank exts f = extRank exts g ∧ SLe f g) := by
  induction exts with
  | nil => cases h
  | cons e rest ih =>
    rw [_first_with_suffix] at h
    cases hh : (pySorted (files.filter (fun x => strEndsWith x e))).head? with
    | some p =>
      rw [hh] at h
      cases h
      obtain ⟨hmem, hmin⟩ := pySorted_head_min hh
      have hf := List.mem_filter.mp hmem
      refine ⟨hf.1, ?_, ?_⟩
      · simp [extRank, hf.2]
      · intro g hg _
        by_cases hge : strEndsWith g e
        · right
          refine ⟨by simp [extRank, hf.2, hge], ?_⟩
          exact hmin g (List.mem_filter.mpr ⟨hg, hge⟩)
        · left
          simp [extRank, hf.2, hge]
    | none =>
      rw [hh] at h
      have hfil : files.filter (fun x => strEndsWith x e) = [] :=
        pySorted_eq_nil hh
      have hnone : ∀ x ∈ files, strEndsWith x e = false := by
        intro x hx
        have := List.filter_eq_nil_iff.mp hfil x hx
        simpa using this
      obtain ⟨h1, h2, h3⟩ := ih h
      have hfe : strEndsWith f e = false := hnone f h1
      refine ⟨h1, ?_, ?_⟩
      · simp only [extRank, hfe, Bool.false_eq_true, if_false, List.length_cons]
        omega
      · intro g hg hgrank
        have hge : strEndsWith g e = false := hnone g hg
        simp only [extRank, hfe, hge, Bool.false_eq_true, if_false,
          List.length_cons] at hgrank ⊢
        rcases h3 g hg (by omega) with h4 | ⟨h4, h5⟩
        · left; omega
        · right; exact ⟨by omega, h5⟩

/-! ## Dictionary lemmas -/

/-- Keys of the index, in order. -/
def dkeys (d : VDict) : List String :=
  d.map Prod.fst

theorem dlookup_dinsert_self (d : VDict) (k : String) (v : VoiceInfo) :
    dlookup (dinsert d k v) k = some v := by
  induction d with
  | nil => simp [dinsert, dlookup]
  | cons p rest ih =>
    obtain ⟨k0, v0⟩ := p
    by_cases h : k0 = k <;> simp [dinsert, dlookup, h, ih]

theorem dlookup_dinsert_ne (d : VDict) (k k2 : String) (v : VoiceInfo)
    (h : k2 ≠ k) : dlookup (dinsert d k v) k2 = dlookup d k2 := by
  induction d with
  | nil => simp [dinsert, dlookup, Ne.symm h]
  | cons p rest ih =>
    obtain ⟨k0, v0⟩ := p
    by_cases h0 : k0 = k
    · subst h0
      simp [dinsert, dlookup, Ne.symm h]
    · by_cases h2 : k0 = k2 <;> simp [dinsert, dlookup, h0, h2, h, ih]

theorem mem_dinsert {d : VDict} {k : String} {v : VoiceInfo}
    {p : String × VoiceInfo} (h : p ∈ dinsert d k v) :
    p = (k, v) ∨ p ∈ d := by
  induction d with
  | nil => simpa [dinsert] using h
  | cons q rest ih =>
    obtain ⟨k0, v0⟩ := q
    by_cases h0 : k0 = k
    · rw [dinsert, if_pos h0] at h
      rcases List.mem_cons.mp h with rfl | h
      · left; rfl
      · right; exact List.mem_cons_of_mem _ h
    · rw [dinsert, if_neg h0] at h
      rcases List.mem_cons.mp h with rfl | h
      · right; exact List.mem_cons_self _ _
      · rcases ih h with h | h
        · left; exact h
        · right; exact List.mem_cons_of_mem _ h

theorem mem_dkeys_dinsert {d : VDict} {k k2 : String} {v : VoiceInfo}
    (h : k2 ∈ dkeys (dinsert d k v)) : k2 = k ∨ k2 ∈ dkeys d := by
  rw [dkeys, List.mem_map] at h
  obtain ⟨p, hp, hpk⟩ := h
  rcases mem_dinsert hp with rfl | hp
  · left; exact hpk.symm
  · right; rw [dkeys, List.mem_map]; exact ⟨p, hp, hpk⟩

theorem dkeys_nodup_dinsert {d : VDict} {k : String} {v : VoiceInfo}
    (h : (dkeys d).Nodup) : (dkeys (dinsert d k v)).Nodup := by
  induction d with
  | nil => simp [dinsert, dkeys]
  | cons p rest ih =>
    obtain ⟨k0, v0⟩ := p
    rw [dkeys, List.map_cons, List.nodup_cons] at h
    by_cases h0 : k0 = k
    · subst h0
      rw [dinsert, if_pos rfl, dkeys, List.map_cons, List.nodup_cons]
      exact ⟨h.1, h.2⟩
    · rw [dinsert, if_neg h0, dkeys, List.map_cons, List.nodup_cons]
      refine ⟨?_, ih h.2⟩
      intro hmem
      rcases mem_dkeys_dinsert hmem with rfl | hmem
      · exact h0 rfl
      · exact h.1 hmem

/-! ## Unfolding the scan -/

/-- The records the scan builds, one per qualifying folder, in visit
order. -/
def recordsOf (L : List Folder) : List VoiceInfo :=
  L.filterMap (fun sub => (_first_audio_in sub.files).map
    (fun p => mkScanRecord sub p))

/-- Folding the per-record index insertions. -/
def insRecords (vs : List VoiceInfo) (d : VDict) : VDict :=
  vs.foldl (fun d vi => dinsert d (strLower vi.name) vi) d

theorem dinsert_dinsert_same (d : VDict) (k : String) (v : VoiceInfo) :
    dinsert (dinsert d k v) k v = dinsert d k v := by
  induction d with
  | nil => simp [dinsert]
  | cons p rest ih =>
    obtain ⟨k0, v0⟩ := p
    by_cases h : k0 = k <;> simp [dinsert, h, ih]

theorem insRecords_cons (v0 : VoiceInfo) (vs : List VoiceInfo) (d : VDict) :
    insRecords (v0 :: vs) d = insRecords vs (dinsert d (strLower v0.name) v0) :=
  rfl

theorem recordsOf_cons_none {sub : Folder} (L : List Folder)
    (hfa : _first_audio_in sub.files = none) :
    recordsOf (sub :: L) = recordsOf L := by
  simp only [recordsOf, List.filterMap_cons, hfa, Option.map_none']

theorem recordsOf_cons_some {sub : Folder} {p : String} (L : List Folder)
    (hfa : _first_audio_in sub.files = some p) :
    recordsOf (sub :: L) = mkScanRecord sub p :: recordsOf L := by
  simp only [recordsOf, List.filterMap_cons, hfa, Option.map_some']

theorem foldl_scanStep (L : List Folder) (acc : ScanOut) :
    L.foldl scanStep acc =
      ⟨acc.voices_json ++ (recordsOf L).map (fun vi => (vi.id, vi.name)),
        insRecords (recordsOf L) acc.idx⟩ := by
  induction L generalizing acc with
  | nil => simp [recordsOf, insRecords]
  | cons sub L ih =>
    rw [List.foldl_cons, ih]
    cases hfa : _first_audio_in sub.files with
    | none =>
      rw [recordsOf_cons_none L hfa]
      have hs : scanStep acc sub = acc := by
        simp only [scanStep, hfa]
      rw [hs]
    | some p =>
      rw [recordsOf_cons_some L hfa]
      have hs : scanStep acc sub =
          ⟨acc.voices_json ++
              [((mkScanRecord sub p).id, (mkScanRecord sub p).name)],
            dinsert acc.idx (strLower (mkScanRecord sub p).name)
              (mkScanRecord sub p)⟩ := by
        simp only [scanStep, hfa]
        have hid : strLower (mkScanRecord sub p).id =
            strLower (mkScanRecord sub p).name := rfl
        rw [hid, dinsert_dinsert_same]
      rw [hs, insRecords_cons]
      simp only [List.map_cons, List.append_assoc, List.singleton_append]

theorem scan_eq (subs : List Folder) :
    _scan_voices true subs =
      ⟨("random", "Random") ::
          (recordsOf (sortFolders subs)).map (fun vi => (vi.id, vi.name)),
        insRecords (recordsOf (sortFolders subs)) []⟩ := by
  rw [_scan_voices, if_pos rfl, foldl_scanStep]
  rfl

theorem mem_recordsOf {L : List Folder} {vi : VoiceInfo} :
    vi ∈ recordsOf L ↔
      ∃ sub ∈ L, ∃ p, _first_audio_in sub.files = some p ∧
        vi = mkScanRecord sub p := by
  rw [recordsOf, List.mem_filterMap]
  constructor
  · rintro ⟨sub, hsub, hmap⟩
    cases hfa : _first_audio_in sub.files with
    | none => rw [hfa] at hmap; cases hmap
    | some p =>
      rw [hfa] at hmap
      cases hmap
      exact ⟨sub, hsub, p, hfa, rfl⟩
  · rintro ⟨sub, hsub, p, hfa, rfl⟩
    exact ⟨sub, hsub, by rw [hfa]; rfl⟩

/-- Names of the built records form a sublist of the folder names, after
applying any key function. -/
theorem recordsOf_map_sublist (g : String → String) (L : List Folder) :
    List.Sublist ((recordsOf L).map (fun vi => g vi.name))
      (L.map (fun f => g f.name)) := by
  induction L with
  | nil => simp [recordsOf]
  | cons sub L ih =>
    cases hfa : _first_audio_in sub.files with
    | none =>
      rw [recordsOf_cons_none L hfa, List.map_cons]
      exact ih.cons _
    | some p =>
      rw [recordsOf_cons_some L hfa, List.map_cons, List.map_cons]
      exact ih.cons₂ _

theorem recordsOf_id_eq_name {L : List Folder} {vi : VoiceInfo}
    (h : vi ∈ recordsOf L) : vi.id = vi.name := by
  obtain ⟨sub, _, p, _, rfl⟩ := mem_recordsOf.mp h
  rfl

/-- In a list with pairwise-distinct keys, filtering on the key of a
member gives exactly that member. -/
theorem filter_key_eq {α β : Type} [DecidableEq β] (key : α → β)
    (l : List α) (x : α) (hnd : (l.map key).Nodup) (hx : x ∈ l) :
    l.filter (fun v => decide (key v = key x)) = [x] := by
  induction l with
  | nil => cases hx
  | cons a l ih =>
    rw [List.map_cons, List.nodup_cons] at hnd
    rcases List.mem_cons.mp hx with rfl | hx
    · have h1 : List.filter (fun v => decide (key v = key x)) (x :: l) =
          x :: List.filter (fun v => decide (key v = key x)) l := by
        simp [List.filter_cons]
      have h2 : l.filter (fun v => decide (key v = key x)) = [] := by
        rw [List.filter_eq_nil_iff]
        intro b hb
        simp only [decide_eq_true_eq]
        intro hk
        exact hnd.1 (List.mem_map.mpr ⟨b, hb, hk⟩)
      rw [h1, h2]
    · have hne : key a ≠ key x := by
        intro hk
        exact hnd.1 (hk ▸ List.mem_map.mpr ⟨x, hx, rfl⟩)
      have h1 : List.filter (fun v => decide (key v = key x)) (a :: l) =
          List.filter (fun v => decide (key v = key x)) l := by
        simp [List.filter_cons, hne]
      rw [h1, ih hnd.2 hx]

/-! ## Index lookup and value facts -/

theorem insRecords_lookup_notmem (vs : List VoiceInfo) (d : VDict)
    (k : String) (h : ∀ vi ∈ vs, strLower vi.name ≠ k) :
    dlookup (insRecords vs d) k = dlookup d k := by
  induction vs generalizing d with
  | nil => rfl
  | cons v0 vs ih =>
    rw [insRecords_cons]
    rw [ih _ (fun vi hvi => h vi (List.mem_cons_of_mem _ hvi))]
    exact dlookup_dinsert_ne _ _ _ _
      (fun hk => h v0 (List.mem_cons_self _ _) hk.symm)

theorem insRecords_lookup_mem (vs : List VoiceInfo) (d : VDict)
    (vi : VoiceInfo)
    (hnd : (vs.map (fun v => strLower v.name)).Nodup) (hvi : vi ∈ vs) :
    dlookup (insRecords vs d) (strLower vi.name) = some vi := by
  induction vs generalizing d with
  | nil => cases hvi
  | cons v0 vs ih =>
    rw [List.map_cons, List.nodup_cons] at hnd
    rw [insRecords_cons]
    rcases List.mem_cons.mp hvi with rfl | hvi
    · rw [insRecords_lookup_notmem _ _ _
        (fun v hv hk => hnd.1 (List.mem_map.mpr ⟨v, hv, hk⟩))]
      exact dlookup_dinsert_self _ _ _
    · exact ih _ hnd.2 hvi

theorem insRecords_keygood (vs : List VoiceInfo) (d : VDict)
    (hd : ∀ p ∈ d, p.1 = strLower p.2.name) :
    ∀ p ∈ insRecords vs d, p.1 = strLower p.2.name := by
  induction vs generalizing d with
  | nil => exact hd
  | cons v0 vs ih =>
    rw [insRecords_cons]
    refine ih _ ?_
    intro p hp
    rcases mem_dinsert hp with rfl | hp
    · rfl
    · exact hd p hp

theorem insRecords_keys_nodup (vs : List VoiceInfo) (d : VDict)
    (hd : (dkeys d).Nodup) : (dkeys (insRecords vs d)).Nodup := by
  induction vs generalizing d with
  | nil => exact hd
  | cons v0 vs ih =>
    rw [insRecords_cons]
    exact ih _ (dkeys_nodup_dinsert hd)

theorem dvalues_nodup (d : VDict)
    (hg : ∀ p ∈ d, p.1 = strLower p.2.name) (hk : (dkeys d).Nodup) :
    (dvalues d).Nodup := by
  have hmap : dkeys d = (dvalues d).map (fun v => strLower v.name) := by
    rw [dkeys, dvalues, List.map_map]
    exact List.map_eq_map_iff.mpr (fun p hp => hg p hp)
  rw [hmap] at hk
  exact List.Nodup.of_map _ hk

theorem append_voices_ne (s : String) : "voices/" ++ s ≠ s := by
  intro h
  have hl : ("voices/".data ++ s.data).length = s.data.length := by
    have hd : ("voices/" ++ s).data = "voices/".data ++ s.data := rfl
    rw [← hd, h]
  rw [List.length_append] at hl
  have h7 : ("voices/".data).length = 7 := rfl
  omega

/-! ## Scan index invariants -/

theorem sortFolders_perm (subs : List Folder) :
    List.Perm (sortFolders subs) subs :=
  List.perm_insertionSort _ subs

theorem mem_sortFolders {subs : List Folder} {sub : Folder} :
    sub ∈ sortFolders subs ↔ sub ∈ subs :=
  (sortFolders_perm subs).mem_iff

theorem scan_idx_good (rootExists : Bool) (subs : List Folder) :
    ∀ p ∈ (_scan_voices rootExists subs).idx,
      p.1 = strLower p.2.name := by
  cases rootExists with
  | false => intro p hp; cases hp
  | true =>
    rw [scan_eq]
    exact insRecords_keygood _ [] (fun p hp => by cases hp)

theorem scan_idx_keys_nodup (rootExists : Bool) (subs : List Folder) :
    (dkeys (_scan_voices rootExists subs).idx).Nodup := by
  cases rootExists with
  | false => exact List.nodup_nil
  | true =>
    rw [scan_eq]
    exact insRecords_keys_nodup _ [] List.nodup_nil

theorem scan_idx_values_nodup (rootExists : Bool) (subs : List Folder) :
    (dvalues (_scan_voices rootExists subs).idx).Nodup :=
  dvalues_nodup _ (scan_idx_good rootExists subs)
    (scan_idx_keys_nodup rootExists subs)

theorem resolve_random_empty (selector : String) (idx : VDict)
    (subs : List Folder) (pick : Nat)
    (h : strLower (pyStrip selector) = "random")
    (hn : (dvalues idx).length = 0) :
    _resolve_voice selector idx subs pick = .error ⟨404⟩ := by
  simp [_resolve_voice, h, hn]

theorem resolve_random_get (selector : String) (idx : VDict)
    (subs : List Folder) (pick : Nat)
    (h : strLower (pyStrip selector) = "random")
    (hn : (dvalues idx).length ≠ 0) :
    _resolve_voice selector idx subs pick =
      .ok ((dvalues idx).get ⟨pick % (dvalues idx).length,
        Nat.mod_lt _ (Nat.pos_of_ne_zero hn)⟩) := by
  simp [_resolve_voice, h, hn]

/-! ## Pipeline helper lemmas -/

theorem rvcStage_write_fail (env : Env) (w : Wave) (sr : Nat)
    (hw : env.writeOk = false) :
    rvcStage env w sr = (w, sr, false, false, []) := by
  simp [rvcStage, hw]

theorem rvcStage_convert_fail (env : Env) (w : Wave) (sr : Nat)
    (hw : env.writeOk = true) (hc : env.convertOk = false) :
    rvcStage env w sr = (w, sr, false, true, [env.tmpInName]) := by
  simp [rvcStage, hw, hc]

theorem rvcStage_read_fail (env : Env) (w : Wave) (sr : Nat)
    (hw : env.writeOk = true) (hc : env.convertOk = true)
    (hr : env.readOutcome = .error ()) :
    rvcStage env w sr =
      (w, sr, false, true, [env.tmpInName, env.tmpOutName]) := by
  simp [rvcStage, hw, hc, hr]

theorem rvcStage_ok (env : Env) (w : Wave) (sr : Nat) (w2 : Wave)
    (sr2 : Nat) (hw : env.writeOk = true) (hc : env.convertOk = true)
    (hr : env.readOutcome = .ok (w2, sr2)) :
    rvcStage env w sr =
      (w2, sr2, true, true, [env.tmpInName, env.tmpOutName]) := by
  simp [rvcStage, hw, hc, hr]

theorem encode_err (enc : String → Wave → Nat → List Nat) (w : Wave)
    (sr : Nat) (fmt : String) (h : validFmt fmt = false) :
    _encode_audio enc w sr fmt = .error ⟨400⟩ := by
  simp only [validFmt, Bool.or_eq_false_iff, decide_eq_false_iff_not] at h
  simp [_encode_audio, h.1.1, h.1.2, h.2]

theorem encode_ok (enc : String → Wave → Nat → List Nat) (w : Wave)
    (sr : Nat) (fmt : String) (h : validFmt fmt = true) :
    ∃ pm, _encode_audio enc w sr fmt = .ok pm := by
  simp only [validFmt, Bool.or_eq_true, decide_eq_true_eq] at h
  rcases h with (h | h) | h <;> simp [_encode_audio, h]

theorem audio_speech_ok_unfold (env : Env) (rootExists : Bool)
    (subs : List Folder) (pick : Nat) (req : SpeechRequest)
    (vi : VoiceInfo) (w0 : Wave) (srOpt : Option Nat)
    (h1 : ¬ pyStrip req.input = "")
    (h2 : _resolve_voice req.voice (_scan_voices rootExists subs).idx
        subs pick = .ok vi)
    (h3 : env.cbOutcome = .ok (w0, srOpt)) :
    audio_speech env rootExists subs pick req = postSynth env req vi w0 srOpt := by
  simp only [audio_speech, if_neg h1, h2, h3]

theorem postSynth_fields (env : Env) (req : SpeechRequest)
    (vi : VoiceInfo) (w0 : Wave) (srOpt : Option Nat) :
    (postSynth env req vi w0 srOpt).rvcStageEntered =
        (strLower req.model = "chatterbox_rvc" && vi.rvc_pth.isSome) ∧
    (postSynth env req vi w0 srOpt).rvcEngineInvoked =
        (stageOf env req vi w0 srOpt).2.2.2.1 ∧
    (postSynth env req vi w0 srOpt).preResampleWave =
        (stageOf env req vi w0 srOpt).1 ∧
    (postSynth env req vi w0 srOpt).preResampleSR =
        (stageOf env req vi w0 srOpt).2.1 ∧
    (postSynth env req vi w0 srOpt).tmpCreated =
        (stageOf env req vi w0 srOpt).2.2.2.2 ∧
    (postSynth env req vi w0 srOpt).tmpRemoved = [] ∧
    (postSynth env req vi w0 srOpt).cbInvoked = true := by
  simp only [postSynth]
  split <;> exact ⟨rfl, rfl, rfl, rfl, rfl, rfl, rfl⟩

theorem postSynth_response_ok (env : Env) (req : SpeechRequest)
    (vi : VoiceInfo) (w0 : Wave) (srOpt : Option Nat)
    (h : validFmt req.format = true) :
    ∃ r, (postSynth env req vi w0 srOpt).response = .ok r ∧
      r.xModel = req.model ∧ r.xVoice = vi.name ∧
      r.xRvcApplied =
        (if (stageOf env req vi w0 srOpt).2.2.1 then "1" else "0") ∧
      r.xChatterboxSR = (stageOf env req vi w0 srOpt).2.1 := by
  obtain ⟨⟨payload, mime⟩, hpm⟩ := encode_ok env.encFn
    (_resample env.resampleFn (stageOf env req vi w0 srOpt).1
      (stageOf env req vi w0 srOpt).2.1 req.sample_rate)
    req.sample_rate req.format h
  simp only [postSynth]
  rw [hpm]
  exact ⟨_, rfl, rfl, rfl, rfl, rfl⟩

theorem postSynth_response_err (env : Env) (req : SpeechRequest)
    (vi : VoiceInfo) (w0 : Wave) (srOpt : Option Nat)
    (h : validFmt req.format = false) :
    (postSynth env req vi w0 srOpt).response = .error ⟨400⟩ := by
  have he := encode_err env.encFn
    (_resample env.resampleFn (stageOf env req vi w0 srOpt).1
      (stageOf env req vi w0 srOpt).2.1 req.sample_rate)
    req.sample_rate req.format h
  simp only [postSynth]
  rw [he]

theorem stageOf_enter (env : Env) (req : SpeechRequest) (vi : VoiceInfo)
    (w0 : Wave) (srOpt : Option Nat)
    (he : strLower req.model = "chatterbox_rvc")
    (hp : vi.rvc_pth.isSome = true) :
    stageOf env req vi w0 srOpt =
      rvcStage env w0 (pyOrNat srOpt DEFAULT_SAMPLE_RATE) := by
  simp [stageOf, he, hp]

theorem stageOf_skip (env : Env) (req : SpeechRequest) (vi : VoiceInfo)
    (w0 : Wave) (srOpt : Option Nat)
    (h : ¬ (strLower req.model = "chatterbox_rvc" ∧ vi.rvc_pth.isSome = true)) :
    stageOf env req vi w0 srOpt =
      (w0, pyOrNat srOpt DEFAULT_SAMPLE_RATE, false, false, []) := by
  rw [stageOf, if_neg]
  simp only [Bool.and_eq_true, decide_eq_true_eq]
  exact h

theorem stageOf_applied (env : Env) (req : SpeechRequest) (vi : VoiceInfo)
    (w0 : Wave) (srOpt : Option Nat)
    (h : (stageOf env req vi w0 srOpt).2.2.1 = true) :
    (strLower req.model = "chatterbox_rvc" ∧ vi.rvc_pth.isSome = true) ∧
      env.writeOk = true ∧ env.convertOk = true ∧
      ∃ w2 sr2, env.readOutcome = .ok (w2, sr2) ∧
        (stageOf env req vi w0 srOpt).1 = w2 ∧
        (stageOf env req vi w0 srOpt).2.1 = sr2 := by
  by_cases hg : strLower req.model = "chatterbox_rvc" ∧ vi.rvc_pth.isSome = true
  · rw [stageOf_enter env req vi w0 srOpt hg.1 hg.2] at h ⊢
    cases hw : env.writeOk
    · rw [rvcStage_write_fail env _ _ hw] at h
      cases h
    · cases hc : env.convertOk
      · rw [rvcStage_convert_fail env _ _ hw hc] at h
        cases h
      · cases hrd : env.readOutcome with
        | error u =>
          cases u
          rw [rvcStage_read_fail env _ _ hw hc hrd] at h
          cases h
        | ok ws =>
          obtain ⟨w2, sr2⟩ := ws
          rw [rvcStage_ok env _ _ w2 sr2 hw hc hrd]
          exact ⟨hg, rfl, rfl, w2, sr2, rfl, rfl, rfl⟩
  · rw [stageOf_skip env req vi w0 srOpt hg] at h
    cases h

theorem stageOf_not_applied (env : Env) (req : SpeechRequest)
    (vi : VoiceInfo) (w0 : Wave) (srOpt : Option Nat)
    (h : (stageOf env req vi w0 srOpt).2.2.1 = false) :
    (stageOf env req vi w0 srOpt).1 = w0 ∧
      (stageOf env req vi w0 srOpt).2.1 =
        pyOrNat srOpt DEFAULT_SAMPLE_RATE := by
  by_cases hg : strLower req.model = "chatterbox_rvc" ∧ vi.rvc_pth.isSome = true
  · rw [stageOf_enter env req vi w0 srOpt hg.1 hg.2] at h ⊢
    cases hw : env.writeOk
    · rw [rvcStage_write_fail env _ _ hw]
      exact ⟨rfl, rfl⟩
    · cases hc : env.convertOk
      · rw [rvcStage_convert_fail env _ _ hw hc]
        exact ⟨rfl, rfl⟩
      · cases hrd : env.readOutcome with
        | error u =>
          cases u
          rw [rvcStage_read_fail env _ _ hw hc hrd]
          exact ⟨rfl, rfl⟩
        | ok ws =>
          obtain ⟨w2, sr2⟩ := ws
          rw [rvcStage_ok env _ _ w2 sr2 hw hc hrd] at h
          cases h
  · rw [stageOf_skip env req vi w0 srOpt hg]
    exact ⟨rfl, rfl⟩

theorem stageOf_stage_failed (env : Env) (req : SpeechRequest)
    (vi : VoiceInfo) (w0 : Wave) (srOpt : Option Nat)
    (h6 : env.writeOk = false ∨ env.convertOk = false ∨
      env.readOutcome = .error ()) :
    (stageOf env req vi w0 srOpt).1 = w0 ∧
      (stageOf env req vi w0 srOpt).2.1 =
        pyOrNat srOpt DEFAULT_SAMPLE_RATE ∧
      (stageOf env req vi w0 srOpt).2.2.1 = false := by
  have hap : (stageOf env req vi w0 srOpt).2.2.1 = false := by
    cases hres : (stageOf env req vi w0 srOpt).2.2.1
    · rfl
    · obtain ⟨_, hw, hc, w2, sr2, hrd, _, _⟩ :=
        stageOf_applied env req vi w0 srOpt hres
      rcases h6 with h | h | h
      · rw [hw] at h; cases h
      · rw [hc] at h; cases h
      · rw [hrd] at h; cases h
  obtain ⟨h1, h2⟩ := stageOf_not_applied env req vi w0 srOpt hap
  exact ⟨h1, h2, hap⟩

/-! ## Gateway run lemmas -/

theorem cb_run_loaded (os : List (Except Unit (Nat × Nat))) (e : Nat)
    (sr : Option Nat) : (cb_run os ⟨some e, sr⟩).2 = 0 := by
  induction os with
  | nil => rfl
  | cons o os ih => simpa [cb_run, cb_load] using ih

theorem cb_run_le_one (os : List (Except Unit (Nat × Nat)))
    (sr : Option Nat) : (cb_run os ⟨none, sr⟩).2 ≤ 1 := by
  induction os generalizing sr with
  | nil => exact Nat.zero_le 1
  | cons o os ih =>
    cases o with
    | error u => simpa [cb_run, cb_load] using ih sr
    | ok p =>
      obtain ⟨e, srv⟩ := p
      simp [cb_run, cb_load, cb_run_loaded]

theorem rvc_run_loaded (os : List (Except Unit Nat)) (c : Nat) :
    (rvc_run os ⟨some c⟩).2 = 0 := by
  induction os with
  | nil => rfl
  | cons o os ih => simpa [rvc_run, rvc_ensure_loaded] using ih

theorem rvc_run_le_one (os : List (Except Unit Nat)) :
    (rvc_run os ⟨none⟩).2 ≤ 1 := by
  induction os with
  | nil => exact Nat.zero_le 1
  | cons o os ih =>
    cases o with
    | error u => simpa [rvc_run, rvc_ensure_loaded] using ih
    | ok c => simp [rvc_run, rvc_ensure_loaded, rvc_run_loaded]

/-! ## Claim theorems -/

/-- C1: when base synthesis succeeds and the conversion stage runs but
fails at any of its fallible steps (temp-file write, engine call,
read-back), the failure is caught and the request still completes
successfully, returning the unconverted stage-one samples at the
stage-one rate with the X-RVC-Applied header "0". -/
theorem claim_c1_conversion_failure_isolated (env : Env)
    (rootExists : Bool) (subs : List Folder) (pick : Nat)
    (req : SpeechRequest) (vi : VoiceInfo) (w0 : Wave) (srOpt : Option Nat)
    (h1 : ¬ pyStrip req.input = "")
    (h2 : _resolve_voice req.voice (_scan_voices rootExists subs).idx
        subs pick = .ok vi)
    (h3 : env.cbOutcome = .ok (w0, srOpt))
    (h4 : strLower req.model = "chatterbox_rvc")
    (h5 : vi.rvc_pth.isSome = true)
    (h6 : env.writeOk = false ∨ env.convertOk = false ∨
      env.readOutcome = .error ())
    (h7 : validFmt req.format = true) :
    ∃ r, (audio_speech env rootExists subs pick req).response = .ok r ∧
      r.xRvcApplied = "0" ∧
      (audio_speech env rootExists subs pick req).preResampleWave = w0 ∧
      (audio_speech env rootExists subs pick req).preResampleSR =
        pyOrNat srOpt DEFAULT_SAMPLE_RATE := by
  rw [audio_speech_ok_unfold env rootExists subs pick req vi w0 srOpt
    h1 h2 h3]
  obtain ⟨hs1, hs2, hs3⟩ := stageOf_stage_failed env req vi w0 srOpt h6
  obtain ⟨r, hr1, _, _, hr4, _⟩ :=
    postSynth_response_ok env req vi w0 srOpt h7
  obtain ⟨_, _, hf3, hf4, _, _, _⟩ := postSynth_fields env req vi w0 srOpt
  refine ⟨r, hr1, ?_, ?_, ?_⟩
  · rw [hr4, hs3]
    rfl
  · rw [hf3, hs1]
  · rw [hf4, hs2]

theorem claim_c1_witness :
    (¬ pyStrip reqRvc.input = "") ∧
    (_resolve_voice reqRvc.voice (_scan_voices true [fW]).idx [fW] 0 =
      .ok viW) ∧
    (envWriteFail.cbOutcome = .ok ([1, 2], some 24000)) ∧
    (strLower reqRvc.model = "chatterbox_rvc") ∧
    (viW.rvc_pth.isSome = true) ∧
    (envWriteFail.writeOk = false) ∧
    (validFmt reqRvc.format = true) ∧
    (∃ r, (audio_speech envWriteFail true [fW] 0 reqRvc).response =
        .ok r ∧ r.xRvcApplied = "0" ∧
      (audio_speech envWriteFail true [fW] 0 reqRvc).preResampleWave =
        [1, 2] ∧
      (audio_speech envWriteFail true [fW] 0 reqRvc).preResampleSR =
        pyOrNat (some 24000) DEFAULT_SAMPLE_RATE) :=
  ⟨by decide, by decide, by decide, by decide, by decide, by decide,
    by decide,
    claim_c1_conversion_failure_isolated envWriteFail true [fW] 0 reqRvc
      viW [1, 2] (some 24000) (by decide) (by decide) (by decide)
      (by decide) (by decide) (Or.inl (by decide)) (by decide)⟩

/-- C2 counterexample: the engine selector "CHATTERBOX_RVC" is not an
exact match for "chatterbox_rvc", yet the conversion stage runs and the
conversion engine is reached, because the code lowercases the selector
before comparing. -/
theorem claim_c2_counterexample :
    (audio_speech envOkAll true [fW] 0 reqRvcUpper).rvcStageEntered =
      true ∧
    (audio_speech envOkAll true [fW] 0 reqRvcUpper).rvcEngineInvoked =
      true ∧
    reqRvcUpper.model ≠ "chatterbox_rvc" := by
  decide

/-- C2 (amended): the conversion stage is entered iff the lowercased
engine name equals "chatterbox_rvc" (case-insensitive match) and the
resolved voice has a conversion-model path; and the conversion-applied
flag is "1" only when the stage ran and every step of it succeeded. -/
theorem claim_c2_conversion_guard (env : Env) (rootExists : Bool)
    (subs : List Folder) (pick : Nat) (req : SpeechRequest)
    (vi : VoiceInfo) (w0 : Wave) (srOpt : Option Nat)
    (r : SpeechResponse)
    (h1 : ¬ pyStrip req.input = "")
    (h2 : _resolve_voice req.voice (_scan_voices rootExists subs).idx
        subs pick = .ok vi)
    (h3 : env.cbOutcome = .ok (w0, srOpt))
    (hre : (audio_speech env rootExists subs pick req).response = .ok r) :
    (audio_speech env rootExists subs pick req).rvcStageEntered =
      (strLower req.model = "chatterbox_rvc" && vi.rvc_pth.isSome) ∧
    (r.xRvcApplied = "1" →
      (strLower req.model = "chatterbox_rvc" ∧ vi.rvc_pth.isSome = true) ∧
        env.writeOk = true ∧ env.convertOk = true ∧
        ∃ w2 sr2, env.readOutcome = .ok (w2, sr2)) := by
  rw [audio_speech_ok_unfold env rootExists subs pick req vi w0 srOpt
    h1 h2 h3] at hre ⊢
  obtain ⟨hf1, _, _, _, _, _, _⟩ := postSynth_fields env req vi w0 srOpt
  refine ⟨hf1, ?_⟩
  intro hflag
  by_cases hfmt : validFmt req.format = true
  · obtain ⟨r0, hr1, _, _, hr4, _⟩ :=
      postSynth_response_ok env req vi w0 srOpt hfmt
    rw [hre] at hr1
    injection hr1 with hr1
    subst hr1
    rw [hr4] at hflag
    cases hap : (stageOf env req vi w0 srOpt).2.2.1
    · rw [hap] at hflag
      simp at hflag
    · obtain ⟨hg, hw, hc, w2, sr2, hrd, _, _⟩ :=
        stageOf_applied env req vi w0 srOpt hap
      exact ⟨hg, hw, hc, w2, sr2, hrd⟩
  · rw [postSynth_response_err env req vi w0 srOpt
      (by rw [Bool.eq_false_iff]; exact hfmt)] at hre
    cases hre

theorem claim_c2_witness :
    (¬ pyStrip reqRvc.input = "") ∧
    (_resolve_voice reqRvc.voice (_scan_voices true [fW]).idx [fW] 0 =
      .ok viW) ∧
    (envOkAll.cbOutcome = .ok ([1, 2], some 24000)) ∧
    ((audio_speech envOkAll true [fW] 0 reqRvc).response =
      .ok ⟨[], "audio/wav", "chatterbox_rvc", "alice", "1", 48000⟩) ∧
    ((audio_speech envOkAll true [fW] 0 reqRvc).rvcStageEntered =
        (strLower reqRvc.model = "chatterbox_rvc" &&
          viW.rvc_pth.isSome) ∧
      ((⟨[], "audio/wav", "chatterbox_rvc", "alice", "1", 48000⟩ :
            SpeechResponse).xRvcApplied = "1" →
        (strLower reqRvc.model = "chatterbox_rvc" ∧
            viW.rvc_pth.isSome = true) ∧
          envOkAll.writeOk = true ∧ envOkAll.convertOk = true ∧
          ∃ w2 sr2, envOkAll.readOutcome = .ok (w2, sr2))) :=
  ⟨by decide, by decide, by decide, by decide,
    claim_c2_conversion_guard envOkAll true [fW] 0 reqRvc viW [1, 2]
      (some 24000) _ (by decide) (by decide) (by decide) (by decide)⟩

/-- C3 counterexample: a request with format "xml" does fail with
BadRequest (400), but only after the base-synthesis engine has been
invoked — the format check happens at the encode stage, not before
synthesis. -/
theorem claim_c3_counterexample :
    (audio_speech envOkAll true [fW] 0 reqXml).response =
      .error ⟨400⟩ ∧
    (audio_speech envOkAll true [fW] 0 reqXml).cbInvoked = true := by
  decide

/-- C3 (amended): a request whose container format is not wav/flac/ogg
fails with BadRequest (400), but the check happens at the encode stage,
after the base-synthesis engine has already been invoked. -/
theorem claim_c3_bad_format_after_synthesis (env : Env)
    (rootExists : Bool) (subs : List Folder) (pick : Nat)
    (req : SpeechRequest) (vi : VoiceInfo) (w0 : Wave)
    (srOpt : Option Nat)
    (h1 : ¬ pyStrip req.input = "")
    (h2 : _resolve_voice req.voice (_scan_voices rootExists subs).idx
        subs pick = .ok vi)
    (h3 : env.cbOutcome = .ok (w0, srOpt))
    (h7 : validFmt req.format = false) :
    (audio_speech env rootExists subs pick req).response =
      .error ⟨400⟩ ∧
    (audio_speech env rootExists subs pick req).cbInvoked = true := by
  rw [audio_speech_ok_unfold env rootExists subs pick req vi w0 srOpt
    h1 h2 h3]
  exact ⟨postSynth_response_err env req vi w0 srOpt h7,
    (postSynth_fields env req vi w0 srOpt).2.2.2.2.2.2⟩

theorem claim_c3_witness :
    (¬ pyStrip reqXml.input = "") ∧
    (_resolve_voice reqXml.voice (_scan_voices true [fW]).idx [fW] 0 =
      .ok viW) ∧
    (envOkAll.cbOutcome = .ok ([1, 2], some 24000)) ∧
    (validFmt reqXml.format = false) ∧
    ((audio_speech envOkAll true [fW] 0 reqXml).response =
        .error ⟨400⟩ ∧
      (audio_speech envOkAll true [fW] 0 reqXml).cbInvoked = true) :=
  ⟨by decide, by decide, by decide, by decide,
    claim_c3_bad_format_after_synthesis envOkAll true [fW] 0 reqXml viW
      [1, 2] (some 24000) (by decide) (by decide) (by decide)
      (by decide)⟩

/-- C4 counterexample: Chatterbox produced 24000 Hz, the RVC read-back
reports 48000 Hz, and the X-Chatterbox-SR header then carries 48000 —
not the rate stage one actually produced. -/
theorem claim_c4_counterexample :
    envOkAll.cbOutcome = .ok ([1, 2], some 24000) ∧
    (audio_speech envOkAll true [fW] 0 reqRvc).response =
      .ok ⟨[], "audio/wav", "chatterbox_rvc", "alice", "1", 48000⟩ ∧
    (48000 : Nat) ≠ 24000 := by
  decide

/-- C4 (amended): X-Chatterbox-SR equals the sample rate of the
pre-resample waveform: the stage-one native rate when conversion was not
applied, but the conversion read-back's rate when it was (the source
rebinds `tts_sr` from `sf.read`). -/
theorem claim_c4_header_rate (env : Env) (rootExists : Bool)
    (subs : List Folder) (pick : Nat) (req : SpeechRequest)
    (vi : VoiceInfo) (w0 : Wave) (srOpt : Option Nat)
    (h1 : ¬ pyStrip req.input = "")
    (h2 : _resolve_voice req.voice (_scan_voices rootExists subs).idx
        subs pick = .ok vi)
    (h3 : env.cbOutcome = .ok (w0, srOpt))
    (h7 : validFmt req.format = true) :
    ∃ r, (audio_speech env rootExists subs pick req).response = .ok r ∧
      r.xChatterboxSR =
        (audio_speech env rootExists subs pick req).preResampleSR ∧
      (r.xRvcApplied = "0" →
        r.xChatterboxSR = pyOrNat srOpt DEFAULT_SAMPLE_RATE) ∧
      (r.xRvcApplied = "1" →
        ∃ w2, env.readOutcome = .ok (w2, r.xChatterboxSR)) := by
  rw [audio_speech_ok_unfold env rootExists subs pick req vi w0 srOpt
    h1 h2 h3]
  obtain ⟨r, hr1, _, _, hr4, hr5⟩ :=
    postSynth_response_ok env req vi w0 srOpt h7
  obtain ⟨_, _, _, hf4, _, _, _⟩ := postSynth_fields env req vi w0 srOpt
  refine ⟨r, hr1, by rw [hr5, hf4], ?_, ?_⟩
  · intro hflag
    rw [hr4] at hflag
    cases hap : (stageOf env req vi w0 srOpt).2.2.1
    · obtain ⟨_, hsr⟩ := stageOf_not_applied env req vi w0 srOpt hap
      rw [hr5, hsr]
    · rw [hap] at hflag
      simp at hflag
  · intro hflag
    rw [hr4] at hflag
    cases hap : (stageOf env req vi w0 srOpt).2.2.1
    · rw [hap] at hflag
      simp at hflag
    · obtain ⟨_, _, _, w2, sr2, hrd, _, hsr⟩ :=
        stageOf_applied env req vi w0 srOpt hap
      exact ⟨w2, by rw [hr5, hsr]; exact hrd⟩

theorem claim_c4_witness :
    (¬ pyStrip reqRvc.input = "") ∧
    (_resolve_voice reqRvc.voice (_scan_voices true [fW]).idx [fW] 0 =
      .ok viW) ∧
    (envOkAll.cbOutcome = .ok ([1, 2], some 24000)) ∧
    (validFmt reqRvc.format = true) ∧
    (∃ r, (audio_speech envOkAll true [fW] 0 reqRvc).response = .ok r ∧
      r.xChatterboxSR =
        (audio_speech envOkAll true [fW] 0 reqRvc).preResampleSR ∧
      (r.xRvcApplied = "0" →
        r.xChatterboxSR = pyOrNat (some 24000) DEFAULT_SAMPLE_RATE) ∧
      (r.xRvcApplied = "1" →
        ∃ w2, envOkAll.readOutcome = .ok (w2, r.xChatterboxSR))) :=
  ⟨by decide, by decide, by decide, by decide,
    claim_c4_header_rate envOkAll true [fW] 0 reqRvc viW [1, 2]
      (some 24000) (by decide) (by decide) (by decide) (by decide)⟩

/-- C5 counterexample: a successful conversion run creates the two
uniquely named temp files and the pipeline never removes them. -/
theorem claim_c5_counterexample :
    (audio_speech envOkAll true [fW] 0 reqRvc).tmpCreated =
      ["tts_a.wav", "rvc_a.wav"] ∧
    (audio_speech envOkAll true [fW] 0 reqRvc).tmpRemoved = [] := by
  decide

/-- C5 (amended): the conversion stage's uniquely named temporary files
are NOT removed after use — no path through the handler removes any
file, so they persist in the cache directory. -/
theorem claim_c5_temp_files_never_removed (env : Env)
    (rootExists : Bool) (subs : List Folder) (pick : Nat)
    (req : SpeechRequest) :
    (audio_speech env rootExists subs pick req).tmpRemoved = [] := by
  unfold audio_speech
  split
  · rfl
  · split
    · rfl
    · split
      · rfl
      · exact (postSynth_fields _ _ _ _ _).2.2.2.2.2.1

/-- C8: each gateway constructs its engine at most once per process —
once the reference is set, `load`/`ensure_loaded` returns without
constructing — and a failed construction leaves the gateway
uninitialized, so a later call attempts construction again (and
succeeds if the constructor now succeeds). -/
theorem claim_c8_lazy_init_once_and_retry :
    (∀ (o : Except Unit (Nat × Nat)) (e : Nat) (sr : Option Nat),
        cb_load o ⟨some e, sr⟩ = (⟨some e, sr⟩, false)) ∧
    (∀ sr : Option Nat,
        cb_load (.error ()) ⟨none, sr⟩ = (⟨none, sr⟩, false)) ∧
    (∀ (e srv : Nat) (sr : Option Nat),
        cb_load (.ok (e, srv)) ⟨none, sr⟩ =
          (⟨some e, some srv⟩, true)) ∧
    (∀ os : List (Except Unit (Nat × Nat)),
        (cb_run os ⟨none, none⟩).2 ≤ 1) ∧
    (∀ (o : Except Unit Nat) (c : Nat),
        rvc_ensure_loaded o ⟨some c⟩ = (⟨some c⟩, false)) ∧
    (rvc_ensure_loaded (.error ()) ⟨none⟩ = (⟨none⟩, false)) ∧
    (∀ c : Nat, rvc_ensure_loaded (.ok c) ⟨none⟩ = (⟨some c⟩, true)) ∧
    (∀ ps : List (Except Unit Nat), (rvc_run ps ⟨none⟩).2 ≤ 1) :=
  ⟨fun _ _ _ => rfl, fun _ => rfl, fun _ _ _ => rfl,
    fun os => cb_run_le_one os none, fun _ _ => rfl, rfl, fun _ => rfl,
    fun ps => rvc_run_le_one ps⟩

/-- C9: a request whose input text is empty after trimming fails with
BadRequest (400) before voice resolution and before either engine is
invoked — the whole run is the error record. -/
theorem claim_c9_empty_input_fails_first (env : Env) (rootExists : Bool)
    (subs : List Folder) (pick : Nat) (req : SpeechRequest)
    (h : pyStrip req.input = "") :
    audio_speech env rootExists subs pick req =
      { response := .error ⟨400⟩
        resolveAttempted := false, cbInvoked := false
        rvcStageEntered := false, rvcEngineInvoked := false
        tmpCreated := [], tmpRemoved := []
        preResampleWave := [], preResampleSR := 0 } := by
  rw [audio_speech, if_pos h]

theorem claim_c9_witness :
    pyStrip reqBlank.input = "" ∧
    audio_speech envOkAll true [fW] 0 reqBlank =
      { response := .error ⟨400⟩
        resolveAttempted := false, cbInvoked := false
        rvcStageEntered := false, rvcEngineInvoked := false
        tmpCreated := [], tmpRemoved := []
        preResampleWave := [], preResampleSR := 0 } :=
  ⟨by decide,
    claim_c9_empty_input_fails_first envOkAll true [fW] 0 reqBlank
      (by decide)⟩

/-- C10: for a folder reached through the raw-folder fallback in
`_resolve_voice` (selector not "random", no index hit), the returned
record's id is "voices/" prepended to the folder name, while the record
a full scan would build for the same folder has id equal to the bare
folder name — the two ids always differ. -/
theorem claim_c10_fallback_id_mismatch (idx : VDict)
    (subs : List Folder) (selector : String) (pick : Nat)
    (folder : Folder) (prompt : String)
    (h1 : ¬ strLower (pyStrip selector) = "random")
    (h2 : dlookup idx (strLower (pyStrip selector)) = none)
    (h3 : subs.find? (fun f => f.name = selector) = some folder)
    (h4 : _first_audio_in folder.files = some prompt) :
    ∃ r, _resolve_voice selector idx subs pick = .ok r ∧
      r.id = "voices/" ++ folder.name ∧
      (mkScanRecord folder prompt).id = folder.name ∧
      r.id ≠ (mkScanRecord folder prompt).id := by
  have hres : _resolve_voice selector idx subs pick =
      .ok { name := folder.name, id := "voices/" ++ folder.name
            prompt := prompt
            rvc_pth := _first_with_suffix folder.files [".pth"]
            rvc_index := _first_with_suffix folder.files
              [".index", ".faiss", ".idx"] } := by
    simp only [_resolve_voice, h1, if_false, h2, h3, h4]
  exact ⟨_, hres, rfl, rfl, fun h => append_voices_ne folder.name h⟩

theorem claim_c10_witness :
    (¬ strLower (pyStrip "ghost") = "random") ∧
    (dlookup [] (strLower (pyStrip "ghost")) = none) ∧
    ([(⟨"ghost", ["g.wav"]⟩ : Folder)].find?
      (fun f => f.name = "ghost") = some ⟨"ghost", ["g.wav"]⟩) ∧
    (_first_audio_in (⟨"ghost", ["g.wav"]⟩ : Folder).files =
      some "g.wav") ∧
    (∃ r, _resolve_voice "ghost" [] [⟨"ghost", ["g.wav"]⟩] 0 = .ok r ∧
      r.id = "voices/" ++ "ghost" ∧
      (mkScanRecord ⟨"ghost", ["g.wav"]⟩ "g.wav").id = "ghost" ∧
      r.id ≠ (mkScanRecord ⟨"ghost", ["g.wav"]⟩ "g.wav").id) :=
  ⟨by decide, by decide, by decide, by decide,
    claim_c10_fallback_id_mismatch [] [⟨"ghost", ["g.wav"]⟩] "ghost" 0
      ⟨"ghost", ["g.wav"]⟩ "g.wav" (by decide) (by decide) (by decide)
      (by decide)⟩

/-- C7: resolving the sentinel "random" (after trimming and lowercasing)
against a scan-built catalog index fails with NotFound (404) when the
index is empty; when it is non-empty it returns an indexed record, and
each indexed record is produced by exactly one of the
`(dvalues idx).length` equiprobable picks — the selection is uniform
over the indexed records. -/
theorem claim_c7_random_uniform (rootExists : Bool) (subs : List Folder)
    (selector : String) (pick : Nat)
    (h : strLower (pyStrip selector) = "random") :
    ((dvalues (_scan_voices rootExists subs).idx).length = 0 →
      _resolve_voice selector (_scan_voices rootExists subs).idx subs
        pick = .error ⟨404⟩) ∧
    ((dvalues (_scan_voices rootExists subs).idx).length ≠ 0 →
      ∃ vi, _resolve_voice selector (_scan_voices rootExists subs).idx
          subs pick = .ok vi ∧
        vi ∈ dvalues (_scan_voices rootExists subs).idx) ∧
    (∀ vi ∈ dvalues (_scan_voices rootExists subs).idx,
      ∃! i, i < (dvalues (_scan_voices rootExists subs).idx).length ∧
        _resolve_voice selector (_scan_voices rootExists subs).idx subs
          i = .ok vi) := by
  refine ⟨fun hn =>
    resolve_random_empty selector _ subs pick h hn, ?_, ?_⟩
  · intro hn
    rw [resolve_random_get selector _ subs pick h hn]
    exact ⟨_, rfl, List.get_mem _ _ _⟩
  · intro vi hvi
    have hnod : (dvalues (_scan_voices rootExists subs).idx).Nodup :=
      scan_idx_values_nodup rootExists subs
    obtain ⟨j, hj⟩ := List.mem_iff_get.mp hvi
    have hn : (dvalues (_scan_voices rootExists subs).idx).length ≠ 0 := by
      intro h0
      rw [List.length_eq_zero] at h0
      rw [h0] at hvi
      cases hvi
    refine ⟨j.val, ⟨j.isLt, ?_⟩, ?_⟩
    · rw [resolve_random_get selector _ subs j.val h hn]
      have hmod :
          (⟨j.val % (dvalues (_scan_voices rootExists subs).idx).length,
            Nat.mod_lt _ (Nat.pos_of_ne_zero hn)⟩ :
            Fin (dvalues (_scan_voices rootExists subs).idx).length) =
            j :=
        Fin.ext (Nat.mod_eq_of_lt j.isLt)
      rw [hmod, hj]
    · rintro y ⟨hy, hres⟩
      rw [resolve_random_get selector _ subs y h hn] at hres
      injection hres with hres
      have h1 : (dvalues (_scan_voices rootExists subs).idx).get
          ⟨y % (dvalues (_scan_voices rootExists subs).idx).length,
            Nat.mod_lt _ (Nat.pos_of_ne_zero hn)⟩ =
          (dvalues (_scan_voices rootExists subs).idx).get j := by
        rw [hres, hj]
      have h2 := (hnod.get_inj_iff).mp h1
      have h3 := congrArg Fin.val h2
      simp only at h3
      rw [Nat.mod_eq_of_lt hy] at h3
      exact h3

theorem claim_c7_witness :
    strLower (pyStrip " RANDOM ") = "random" ∧
    (((dvalues (_scan_voices true [fW]).idx).length = 0 →
      _resolve_voice " RANDOM " (_scan_voices true [fW]).idx [fW] 0 =
        .error ⟨404⟩) ∧
    ((dvalues (_scan_voices true [fW]).idx).length ≠ 0 →
      ∃ vi, _resolve_voice " RANDOM " (_scan_voices true [fW]).idx [fW]
          0 = .ok vi ∧
        vi ∈ dvalues (_scan_voices true [fW]).idx) ∧
    (∀ vi ∈ dvalues (_scan_voices true [fW]).idx,
      ∃! i, i < (dvalues (_scan_voices true [fW]).idx).length ∧
        _resolve_voice " RANDOM " (_scan_voices true [fW]).idx [fW] i =
          .ok vi)) :=
  ⟨by decide, claim_c7_random_uniform true [fW] " RANDOM " 0 (by decide)⟩

/-- C6 counterexample: folders "Alice" and "alice" both qualify (each has
a `.wav`), and both appear in the listing; but their index keys collide
at lowercase "alice", so the later folder's record overwrites the
earlier one's — the qualifying folder "Alice" has NO record keyed in the
index (the only indexed record is folder "alice"'s), refuting "every
qualifying subdirectory produces exactly one VoiceRecord keyed in the
index by its lowercase name and lowercase id". -/
theorem claim_c6_counterexample :
    _first_audio_in (⟨"Alice", ["a.wav"]⟩ : Folder).files =
      some "a.wav" ∧
    (_scan_voices true
        [⟨"Alice", ["a.wav"]⟩, ⟨"alice", ["b.wav"]⟩]).voices_json =
      [("random", "Random"), ("Alice", "Alice"), ("alice", "alice")] ∧
    dlookup (_scan_voices true
        [⟨"Alice", ["a.wav"]⟩, ⟨"alice", ["b.wav"]⟩]).idx
      (strLower "Alice") = some ⟨"alice", "alice", "b.wav", none, none⟩ ∧
    dvalues (_scan_voices true
        [⟨"Alice", ["a.wav"]⟩, ⟨"alice", ["b.wav"]⟩]).idx =
      [⟨"alice", "alice", "b.wav", none, none⟩] := by
  decide

/-- C6 (amended): provided the folders' lowercased names are pairwise
distinct (otherwise a later folder's index key overwrites an earlier
one's, as the counterexample shows): the reference asset is the first
file found trying the fixed extension list with extension order primary
and lexicographic filename order secondary; a folder with no recognized
audio extension produces no record and no error; and every qualifying
folder produces exactly one record, keyed in the index by its lowercase
name and lowercase id. -/
theorem claim_c6_scan_selection_and_indexing (subs : List Folder)
    (hnd : (subs.map (fun f => strLower f.name)).Nodup) :
    (∀ (files : List String) (f : String),
      _first_audio_in files = some f →
        f ∈ files ∧ extRank AUDIO_EXTS f < AUDIO_EXTS.length ∧
        ∀ g ∈ files, extRank AUDIO_EXTS g < AUDIO_EXTS.length →
          extRank AUDIO_EXTS f < extRank AUDIO_EXTS g ∨
            (extRank AUDIO_EXTS f = extRank AUDIO_EXTS g ∧ SLe f g)) ∧
    (∀ files : List String, _first_audio_in files = none ↔
      ∀ f ∈ files, ∀ e ∈ AUDIO_EXTS, strEndsWith f e = false) ∧
    (∀ sub ∈ subs, _first_audio_in sub.files = none →
      (_scan_voices true subs).voices_json.tail.filter
        (fun pr => decide (pr.1 = sub.name)) = []) ∧
    (∀ sub ∈ subs, ∀ p, _first_audio_in sub.files = some p →
      (_scan_voices true subs).voices_json.tail.filter
          (fun pr => decide (pr.1 = sub.name)) =
        [(sub.name, sub.name)] ∧
      dlookup (_scan_voices true subs).idx
          (strLower (mkScanRecord sub p).name) =
        some (mkScanRecord sub p) ∧
      dlookup (_scan_voices true subs).idx
          (strLower (mkScanRecord sub p).id) =
        some (mkScanRecord sub p)) := by
  have hnames : (subs.map Folder.name).Nodup := by
    apply List.Nodup.of_map strLower
    have hm : (subs.map Folder.name).map strLower =
        subs.map (fun f => strLower f.name) := by
      rw [List.map_map]
      rfl
    rw [hm]
    exact hnd
  have hlowSorted :
      ((sortFolders subs).map (fun f => strLower f.name)).Nodup :=
    (((sortFolders_perm subs).map (fun f => strLower f.name)).nodup_iff).mpr
      hnd
  have hnamesSorted : ((sortFolders subs).map Folder.name).Nodup :=
    (((sortFolders_perm subs).map Folder.name).nodup_iff).mpr hnames
  have hrecNames :
      ((recordsOf (sortFolders subs)).map
        (fun vi => vi.name)).Nodup :=
    ((recordsOf_map_sublist (fun s => s) (sortFolders subs)).nodup
      hnamesSorted)
  have hrecIds :
      ((recordsOf (sortFolders subs)).map (fun vi => vi.id)).Nodup := by
    have hmap : (recordsOf (sortFolders subs)).map (fun vi => vi.id) =
        (recordsOf (sortFolders subs)).map (fun vi => vi.name) :=
      List.map_eq_map_iff.mpr
        (fun vi hvi => recordsOf_id_eq_name hvi)
    rw [hmap]
    exact hrecNames
  have hrecLow :
      ((recordsOf (sortFolders subs)).map
        (fun vi => strLower vi.name)).Nodup :=
    ((recordsOf_map_sublist strLower (sortFolders subs)).nodup hlowSorted)
  refine ⟨fun files f hf => fws_eq_some_char files AUDIO_EXTS f hf,
    fun files => fws_eq_none_iff files AUDIO_EXTS, ?_, ?_⟩
  · intro sub hsub hnone
    rw [scan_eq]
    simp only [List.tail_cons]
    rw [List.filter_map]
    have hfil : (recordsOf (sortFolders subs)).filter
        ((fun pr => decide (pr.1 = sub.name)) ∘
          (fun vi => (vi.id, vi.name))) = [] := by
      rw [List.filter_eq_nil_iff]
      intro vi hvi
      simp only [Function.comp_apply, decide_eq_true_eq]
      intro hid
      obtain ⟨sub2, hsub2, p2, hfa2, rfl⟩ := mem_recordsOf.mp hvi
      have hname : sub2.name = sub.name := hid
      have heq : sub2 = sub :=
        List.inj_on_of_nodup_map hnames
          (mem_sortFolders.mp hsub2) hsub hname
      rw [heq, hnone] at hfa2
      cases hfa2
    rw [hfil]
    rfl
  · intro sub hsub p hfa
    have hmem : mkScanRecord sub p ∈ recordsOf (sortFolders subs) :=
      mem_recordsOf.mpr ⟨sub, mem_sortFolders.mpr hsub, p, hfa, rfl⟩
    refine ⟨?_, ?_, ?_⟩
    · rw [scan_eq]
      simp only [List.tail_cons]
      rw [List.filter_map]
      have hfil := filter_key_eq (fun vi => vi.id)
        (recordsOf (sortFolders subs)) (mkScanRecord sub p) hrecIds hmem
      have hpred : ((fun pr => decide (pr.1 = sub.name)) ∘
          (fun vi : VoiceInfo => (vi.id, vi.name))) =
          (fun vi : VoiceInfo =>
            decide (vi.id = (mkScanRecord sub p).id)) := rfl
      rw [hpred, hfil]
      rfl
    · rw [scan_eq]
      exact insRecords_lookup_mem _ [] (mkScanRecord sub p) hrecLow hmem
    · rw [scan_eq]
      exact insRecords_lookup_mem _ [] (mkScanRecord sub p) hrecLow hmem

theorem claim_c6_witness :
    (([⟨"alice", ["ref.wav", "model.pth"]⟩, ⟨"bob", ["notes.txt"]⟩] :
        List Folder).map (fun f => strLower f.name)).Nodup ∧
    ((∀ (files : List String) (f : String),
      _first_audio_in files = some f →
        f ∈ files ∧ extRank AUDIO_EXTS f < AUDIO_EXTS.length ∧
        ∀ g ∈ files, extRank AUDIO_EXTS g < AUDIO_EXTS.length →
          extRank AUDIO_EXTS f < extRank AUDIO_EXTS g ∨
            (extRank AUDIO_EXTS f = extRank AUDIO_EXTS g ∧ SLe f g)) ∧
    (∀ files : List String, _first_audio_in files = none ↔
      ∀ f ∈ files, ∀ e ∈ AUDIO_EXTS, strEndsWith f e = false) ∧
    (∀ sub ∈ ([⟨"alice", ["ref.wav", "model.pth"]⟩,
        ⟨"bob", ["notes.txt"]⟩] : List Folder),
      _first_audio_in sub.files = none →
      (_scan_voices true [⟨"alice", ["ref.wav", "model.pth"]⟩,
          ⟨"bob", ["notes.txt"]⟩]).voices_json.tail.filter
        (fun pr => decide (pr.1 = sub.name)) = []) ∧
    (∀ sub ∈ ([⟨"alice", ["ref.wav", "model.pth"]⟩,
        ⟨"bob", ["notes.txt"]⟩] : List Folder),
      ∀ p, _first_audio_in sub.files = some p →
      (_scan_voices true [⟨"alice", ["ref.wav", "model.pth"]⟩,
            ⟨"bob", ["notes.txt"]⟩]).voices_json.tail.filter
          (fun pr => decide (pr.1 = sub.name)) =
        [(sub.name, sub.name)] ∧
      dlookup (_scan_voices true [⟨"alice", ["ref.wav", "model.pth"]⟩,
            ⟨"bob", ["notes.txt"]⟩]).idx
          (strLower (mkScanRecord sub p).name) =
        some (mkScanRecord sub p) ∧
      dlookup (_scan_voices true [⟨"alice", ["ref.wav", "model.pth"]⟩,
            ⟨"bob", ["notes.txt"]⟩]).idx
          (strLower (mkScanRecord sub p).id) =
        some (mkScanRecord sub p))) :=
  ⟨by decide,
    claim_c6_scan_selection_and_indexing
      [⟨"alice", ["ref.wav", "model.pth"]⟩, ⟨"bob", ["notes.txt"]⟩]
      (by decide)⟩

end ChatterVC
